import Mathlib

/-!
Verification of the Scalene profile normalization pipeline.

The definitions below are a shallow embedding of the parser module
(`parseScaleneProfile`, `parseScaleneFile`, `parseScaleneLine`,
`parseScaleneFunction`, `calculateLeakScore`, `isLikelyLeak`,
`formatMemoryMb`, `formatPercent`) and of the type declarations it
operates on.  JavaScript numbers are modelled as rationals (`ℚ`), line
numbers and sample counts as naturals, optional fields as `Option`, and
JavaScript objects used as maps as association lists.  JavaScript
truthiness on numbers (`0` is falsy) and on strings (`""` is falsy) is
modelled explicitly where the source relies on it.
-/

namespace Scalene

/-! ## Data model (raw Scalene JSON types) -/

structure RawScaleneLine where
  lineno : ℕ
  line : String
  n_cpu_percent_python : Option ℚ
  n_cpu_percent_c : Option ℚ
  n_sys_percent : Option ℚ
  n_core_utilization : Option ℚ
  cpu_samples_list : Option (List ℚ)
  n_malloc_mb : Option ℚ
  n_peak_mb : Option ℚ
  n_avg_mb : Option ℚ
  n_growth_mb : Option ℚ
  n_python_fraction : Option ℚ
  n_usage_fraction : Option ℚ
  n_copy_mb_s : Option ℚ
  n_mallocs : Option ℚ
  memory_samples : Option (List (ℚ × ℚ))
  n_gpu_percent : Option ℚ
  n_gpu_peak_memory_mb : Option ℚ
  n_gpu_avg_memory_mb : Option ℚ
  start_region_line : Option ℕ
  end_region_line : Option ℕ
  start_outermost_loop : Option ℕ
  end_outermost_loop : Option ℕ
deriving DecidableEq, Repr

structure RawScaleneFunction where
  name : Option String
  lineno : Option ℕ
  n_cpu_percent_python : Option ℚ
  n_cpu_percent_c : Option ℚ
  n_sys_percent : Option ℚ
  n_malloc_mb : Option ℚ
  n_peak_mb : Option ℚ
  n_growth_mb : Option ℚ
  n_copy_mb_s : Option ℚ
deriving DecidableEq, Repr

structure RawScaleneFile where
  lines : List RawScaleneLine
  functions : List RawScaleneFunction
  imports : Option (List String)
  leaks : Option (List (String × ℚ))
deriving DecidableEq, Repr

structure RawScaleneProfile where
  alloc_samples : Option ℕ
  free_samples : Option ℕ
  args : Option (List String)
  elapsed_time_sec : ℚ
  entrypoint_dir : Option String
  filename : Option String
  files : List (String × RawScaleneFile)
  growth_rate : Option ℚ
deriving DecidableEq, Repr

/-! ## Data model (normalized types) -/

structure ScaleneLineData where
  lineno : ℕ
  code : String
  n_cpu_percent_python : Option ℚ
  n_cpu_percent_c : Option ℚ
  n_sys_percent : Option ℚ
  n_core_utilization : Option ℚ
  cpu_samples_count : ℕ
  n_malloc_mb : Option ℚ
  n_peak_mb : Option ℚ
  n_avg_mb : Option ℚ
  n_growth_mb : Option ℚ
  n_python_fraction : Option ℚ
  n_usage_fraction : Option ℚ
  n_copy_mb_s : Option ℚ
  n_mallocs : Option ℚ
  memory_samples_count : ℕ
  n_gpu_percent : Option ℚ
  n_gpu_peak_memory_mb : Option ℚ
  n_gpu_avg_memory_mb : Option ℚ
  leak_score : Option ℚ
deriving DecidableEq, Repr

structure ScaleneFunction where
  name : String
  lineno : ℕ
  n_cpu_percent_python : Option ℚ
  n_cpu_percent_c : Option ℚ
  n_sys_percent : Option ℚ
  n_malloc_mb : Option ℚ
  n_peak_mb : Option ℚ
  n_growth_mb : Option ℚ
  n_copy_mb_s : Option ℚ
deriving DecidableEq, Repr

structure ScaleneFileData where
  lines : List (ℕ × ScaleneLineData)
  functions : List ScaleneFunction
  leaks : List (String × ℚ)
deriving DecidableEq, Repr

structure ScaleneProfile where
  program : String
  args : List String
  elapsed_time : ℚ
  entrypoint_dir : String
  max_memory_mb : ℚ
  total_memory_growth_mb : ℚ
  growth_rate : ℚ
  total_cpu_percent_python : ℚ
  total_cpu_percent_c : ℚ
  total_sys_percent : ℚ
  alloc_samples : ℕ
  free_samples : ℕ
  files : List (String × ScaleneFileData)
deriving DecidableEq, Repr

/-! ## JavaScript semantics helpers -/

/-- The value of an optional number, with `undefined` read as `0`
(only ever applied after a presence/truthiness test). -/
def getQ : Option ℚ → ℚ
  | some v => v
  | none => 0

/-- JavaScript truthiness of an optional number: `undefined` and `0` are falsy. -/
def truthyQ : Option ℚ → Bool
  | some v => v != 0
  | none => false

/-- JavaScript falsiness of an optional string: `undefined` and `""` are falsy. -/
def jsFalsyStr : Option String → Bool
  | some s => s == ""
  | none => true

/-- JavaScript falsiness of an optional number used as a line number:
`undefined` and `0` are falsy. -/
def jsFalsyNat : Option ℕ → Bool
  | some n => n == 0
  | none => true

/-- JavaScript `a || b` on an optional string and a string default. -/
def jsOrStr (a : Option String) (b : String) : String :=
  match a with
  | some s => if s = "" then b else s
  | none => b

/-! ## Leak scoring (`calculateLeakScore`) -/

/-- Lookup `leaks[String(lineno)]` on the optional leaks object. -/
def lookupLeak (leaks : Option (List (String × ℚ))) (lineno : ℕ) : Option ℚ :=
  match leaks with
  | some m => m.lookup (toString lineno)
  | none => none

/-- Embedding of `calculateLeakScore`: the heuristic leak score of one raw
line.  Each `if` mirrors a condition of the source, including the JS
truthiness tests (`leaks && leaks[...]`, `x && x > 0`). -/
def calculateLeakScore (line : RawScaleneLine)
    (leaks : Option (List (String × ℚ))) : ℚ :=
  let score : ℚ := 0
  let score :=
    match lookupLeak leaks line.lineno with
    | some w => if w ≠ 0 then score + w else score
    | none => score
  let score :=
    match line.n_growth_mb with
    | some g => if g ≠ 0 ∧ 0 < g then score + g * 10 else score
    | none => score
  let score :=
    match line.n_malloc_mb, line.n_growth_mb with
    | some m, some g =>
        if (m ≠ 0 ∧ 0 < m) ∧ (g ≠ 0 ∧ 0 < g) then score + m * 5 else score
    | _, _ => score
  let score :=
    match line.n_usage_fraction, line.n_growth_mb with
    | some u, some g =>
        if u < 3/10 ∧ (g ≠ 0 ∧ 0 < g) then score + 20 else score
    | _, _ => score
  score

/-! ## Line, function and file normalizers -/

/-- Embedding of `parseScaleneLine`. -/
def parseScaleneLine (raw : RawScaleneLine)
    (leaks : Option (List (String × ℚ))) : ScaleneLineData :=
  let leakScore := calculateLeakScore raw leaks
  { lineno := raw.lineno
    code := raw.line
    n_cpu_percent_python := raw.n_cpu_percent_python
    n_cpu_percent_c := raw.n_cpu_percent_c
    n_sys_percent := raw.n_sys_percent
    n_core_utilization := raw.n_core_utilization
    cpu_samples_count := (raw.cpu_samples_list.map List.length).getD 0
    n_malloc_mb := raw.n_malloc_mb
    n_peak_mb := raw.n_peak_mb
    n_avg_mb := raw.n_avg_mb
    n_growth_mb := raw.n_growth_mb
    n_python_fraction := raw.n_python_fraction
    n_usage_fraction := raw.n_usage_fraction
    n_copy_mb_s := raw.n_copy_mb_s
    n_mallocs := raw.n_mallocs
    memory_samples_count := (raw.memory_samples.map List.length).getD 0
    n_gpu_percent := raw.n_gpu_percent
    n_gpu_peak_memory_mb := raw.n_gpu_peak_memory_mb
    n_gpu_avg_memory_mb := raw.n_gpu_avg_memory_mb
    leak_score := some leakScore }

/-- Embedding of `parseScaleneFunction`: rejects a record whose `name` or
`lineno` is JS-falsy (`!raw.name || !raw.lineno`). -/
def parseScaleneFunction (raw : RawScaleneFunction) : Option ScaleneFunction :=
  if jsFalsyStr raw.name || jsFalsyNat raw.lineno then
    none
  else
    some
      { name := raw.name.getD ""
        lineno := raw.lineno.getD 0
        n_cpu_percent_python := raw.n_cpu_percent_python
        n_cpu_percent_c := raw.n_cpu_percent_c
        n_sys_percent := raw.n_sys_percent
        n_malloc_mb := raw.n_malloc_mb
        n_peak_mb := raw.n_peak_mb
        n_growth_mb := raw.n_growth_mb
        n_copy_mb_s := raw.n_copy_mb_s }

/-- Insertion into the `lines` object (`lines[line.lineno] = lineData`):
JavaScript objects keep non-negative integer keys in ascending order, and
assignment to an existing key overwrites its value in place. -/
def insertSorted : List (ℕ × ScaleneLineData) → ℕ → ScaleneLineData →
    List (ℕ × ScaleneLineData)
  | [], k, v => [(k, v)]
  | (k', v') :: rest, k, v =>
    if k = k' then (k, v) :: rest
    else if k < k' then (k, v) :: (k', v') :: rest
    else (k', v') :: insertSorted rest k v

/-- `Object.values` of the lines object. -/
def valuesOf (m : List (ℕ × ScaleneLineData)) : List ScaleneLineData :=
  m.map Prod.snd

/-- Embedding of `parseScaleneFile`. -/
def parseScaleneFile (raw : RawScaleneFile) : ScaleneFileData :=
  let lines := raw.lines.foldl
    (fun m l => insertSorted m l.lineno (parseScaleneLine l raw.leaks)) []
  let functions := (raw.functions.map parseScaleneFunction).filterMap id
  { lines := lines
    functions := functions
    leaks := raw.leaks.getD [] }

/-! ## Report normalizer (`parseScaleneProfile`) -/

/-- The mutable aggregate accumulators of `parseScaleneProfile`. -/
structure AggState where
  maxMemoryMb : ℚ
  totalMemoryGrowthMb : ℚ
  totalCpuPython : ℚ
  totalCpuC : ℚ
  totalSys : ℚ
deriving DecidableEq, Repr

def initAgg : AggState :=
  { maxMemoryMb := 0
    totalMemoryGrowthMb := 0
    totalCpuPython := 0
    totalCpuC := 0
    totalSys := 0 }

/-- One iteration of the aggregation loop body over a normalized line. -/
def aggLine (s : AggState) (ld : ScaleneLineData) : AggState :=
  let s :=
    if truthyQ ld.n_peak_mb && decide (getQ ld.n_peak_mb > s.maxMemoryMb) then
      { s with maxMemoryMb := getQ ld.n_peak_mb }
    else s
  let s :=
    if truthyQ ld.n_growth_mb then
      { s with totalMemoryGrowthMb := s.totalMemoryGrowthMb + getQ ld.n_growth_mb }
    else s
  let s :=
    if truthyQ ld.n_cpu_percent_python then
      { s with totalCpuPython := s.totalCpuPython + getQ ld.n_cpu_percent_python }
    else s
  let s :=
    if truthyQ ld.n_cpu_percent_c then
      { s with totalCpuC := s.totalCpuC + getQ ld.n_cpu_percent_c }
    else s
  if truthyQ ld.n_sys_percent then
    { s with totalSys := s.totalSys + getQ ld.n_sys_percent }
  else s

/-- Aggregation over `Object.values(normalizedFile.lines)`. -/
def aggFile (s : AggState) (nf : ScaleneFileData) : AggState :=
  (valuesOf nf.lines).foldl aggLine s

/-- Assembling the returned `ScaleneProfile` record. -/
def mkScaleneProfile (raw : RawScaleneProfile)
    (files : List (String × ScaleneFileData)) (agg : AggState)
    (growthRate : ℚ) : ScaleneProfile :=
  { program := jsOrStr (raw.args.getD []).head? (jsOrStr raw.filename "Unknown")
    args := raw.args.getD []
    elapsed_time := raw.elapsed_time_sec
    entrypoint_dir := jsOrStr raw.entrypoint_dir ""
    max_memory_mb := agg.maxMemoryMb
    total_memory_growth_mb := agg.totalMemoryGrowthMb
    growth_rate := growthRate
    total_cpu_percent_python := agg.totalCpuPython
    total_cpu_percent_c := agg.totalCpuC
    total_sys_percent := agg.totalSys
    alloc_samples := raw.alloc_samples.getD 0
    free_samples := raw.free_samples.getD 0
    files := files }

/-- Embedding of `parseScaleneProfile`. -/
def parseScaleneProfile (raw : RawScaleneProfile) : ScaleneProfile :=
  let files := raw.files.map (fun pf => (pf.1, parseScaleneFile pf.2))
  let agg := files.foldl (fun s pf => aggFile s pf.2) initAgg
  let growthRate :=
    if agg.maxMemoryMb > 0 then agg.totalMemoryGrowthMb / agg.maxMemoryMb * 100
    else 0
  mkScaleneProfile raw files agg growthRate

/-- Division that signals a division by zero instead of defaulting. -/
def divE (a b : ℚ) : Except String ℚ :=
  if b = 0 then Except.error "division by zero" else Except.ok (a / b)

/-- The growth-rate computation with its division checked. -/
def growthRateE (total maxMem : ℚ) : Except String ℚ :=
  if maxMem > 0 then (divE total maxMem).map (fun r => r * 100)
  else Except.ok 0

/-- `parseScaleneProfile` with every partial numeric operation made
explicit: the one division is checked, so a run that would divide by zero
surfaces as an `Except.error`. -/
def parseScaleneProfileE (raw : RawScaleneProfile) : Except String ScaleneProfile :=
  let files := raw.files.map (fun pf => (pf.1, parseScaleneFile pf.2))
  let agg := files.foldl (fun s pf => aggFile s pf.2) initAgg
  (growthRateE agg.totalMemoryGrowthMb agg.maxMemoryMb).map
    (fun growthRate => mkScaleneProfile raw files agg growthRate)

/-! ## Leak classifier and formatters -/

/-- Embedding of `isLikelyLeak`: `(line.leak_score || 0) > threshold`
(the source's default threshold is 50). -/
def isLikelyLeak (line : ScaleneLineData) (threshold : ℚ) : Bool :=
  let s :=
    match line.leak_score with
    | some v => if v ≠ 0 then v else 0
    | none => 0
  decide (s > threshold)

/-- The source's default classifier threshold. -/
def defaultLeakThreshold : ℚ := 50

def padLeftZeros (s : String) (f : ℕ) : String :=
  if s.length < f then String.mk (List.replicate (f - s.length) '0') ++ s
  else s

/-- Decimal rendering of a scaled natural: `natDecimalString 50 2 = "0.50"`. -/
def natDecimalString (n f : ℕ) : String :=
  if f = 0 then toString n
  else toString (n / 10 ^ f) ++ "." ++ padLeftZeros (toString (n % 10 ^ f)) f

/-- `Number.prototype.toFixed` for the non-negative arguments the
formatters feed it: round half away from zero, i.e. half up. -/
def qToFixed (q : ℚ) (f : ℕ) : String :=
  natDecimalString (Int.toNat ⌊q * 10 ^ f + 1/2⌋) f

/-- Embedding of `formatMemoryMb`. -/
def formatMemoryMb (mb : Option ℚ) : String :=
  match mb with
  | none => "-"
  | some v =>
    if v = 0 then "-"
    else if v < 1/100 then "<0.01 MB"
    else if v < 1 then qToFixed v 2 ++ " MB"
    else if v < 1000 then qToFixed v 1 ++ " MB"
    else qToFixed (v / 1024) 2 ++ " GB"

/-- Embedding of `formatPercent`. -/
def formatPercent (value : Option ℚ) : String :=
  match value with
  | none => "-"
  | some v =>
    if v = 0 then "-"
    else if v < 1/100 then "<0.01%"
    else qToFixed v 2 ++ "%"

/-! ## Specification-side definitions

These restate, in the spec's words, the quantities the claims compare the
code against. -/

/-- Spec term: "the leaks-map weight stored under the string representation
of the line's number (when such an entry exists)". -/
def leakTermLeaks (line : RawScaleneLine)
    (leaks : Option (List (String × ℚ))) : ℚ :=
  match lookupLeak leaks line.lineno with
  | some w => w
  | none => 0

/-- Spec term: "growthMb * 10 when growthMb is present and > 0". -/
def leakTermGrowth (line : RawScaleneLine) : ℚ :=
  match line.n_growth_mb with
  | some g => if 0 < g then g * 10 else 0
  | none => 0

/-- Spec term: "mallocMb * 5 when both mallocMb is present and > 0 and
growthMb is present and > 0". -/
def leakTermMalloc (line : RawScaleneLine) : ℚ :=
  match line.n_malloc_mb, line.n_growth_mb with
  | some m, some g => if 0 < m ∧ 0 < g then m * 5 else 0
  | _, _ => 0

/-- Spec term: "a flat 20 when usageFraction is present and < 0.3 and
growthMb is present and > 0". -/
def leakTermUsage (line : RawScaleneLine) : ℚ :=
  match line.n_usage_fraction, line.n_growth_mb with
  | some u, some g => if u < 3/10 ∧ 0 < g then 20 else 0
  | _, _ => 0

/-- The keys of the lines object. -/
def keysOf (m : List (ℕ × ScaleneLineData)) : List ℕ :=
  m.map Prod.fst

/-- All `peakMb` values present on the raw lines of all files, in report
order. -/
def allRawPeaks (raw : RawScaleneProfile) : List ℚ :=
  (raw.files.map (fun pf => pf.2.lines.filterMap RawScaleneLine.n_peak_mb)).flatten

/-- All `peakMb` values present on the normalized lines of all files, in
the order the aggregation loop visits them. -/
def allNormalizedPeaks (raw : RawScaleneProfile) : List ℚ :=
  (raw.files.map
    (fun pf => (valuesOf (parseScaleneFile pf.2).lines).filterMap
      ScaleneLineData.n_peak_mb)).flatten

/-- The aggregation state reached after folding over the whole report. -/
def reportAgg (raw : RawScaleneProfile) : AggState :=
  raw.files.foldl (fun s pf => aggFile s (parseScaleneFile pf.2)) initAgg

/-! ## Concrete example inputs -/

/-- A raw line with no optional field measured. -/
def emptyRawLine : RawScaleneLine :=
  { lineno := 0, line := "", n_cpu_percent_python := none, n_cpu_percent_c := none,
    n_sys_percent := none, n_core_utilization := none, cpu_samples_list := none,
    n_malloc_mb := none, n_peak_mb := none, n_avg_mb := none, n_growth_mb := none,
    n_python_fraction := none, n_usage_fraction := none, n_copy_mb_s := none,
    n_mallocs := none, memory_samples := none, n_gpu_percent := none,
    n_gpu_peak_memory_mb := none, n_gpu_avg_memory_mb := none,
    start_region_line := none, end_region_line := none,
    start_outermost_loop := none, end_outermost_loop := none }

/-- The spec's end-to-end example line 10:
`growthMb: 5, usageFraction: 0.1, mallocMb: 2`. -/
def exLine10 : RawScaleneLine :=
  { emptyRawLine with
    lineno := 10
    n_growth_mb := some 5
    n_usage_fraction := some (1/10)
    n_malloc_mb := some 2 }

/-- The spec's end-to-end example line 20, with no memory fields. -/
def exLine20 : RawScaleneLine :=
  { emptyRawLine with lineno := 20 }

/-- A line at lineno 7 with no measured metrics. -/
def cexLeakLine : RawScaleneLine :=
  { emptyRawLine with lineno := 7 }

/-- A leaks map holding a negative weight for line 7. -/
def cexLeakMap : List (String × ℚ) := [("7", -5)]

/-- A raw function with a name and a line number. -/
def exFunGood : RawScaleneFunction :=
  { name := some "process", lineno := some 3, n_cpu_percent_python := none,
    n_cpu_percent_c := none, n_sys_percent := none, n_malloc_mb := none,
    n_peak_mb := none, n_growth_mb := none, n_copy_mb_s := none }

/-- A raw function missing its `lineno`. -/
def exFunNoLineno : RawScaleneFunction :=
  { name := some "helper", lineno := none, n_cpu_percent_python := none,
    n_cpu_percent_c := none, n_sys_percent := none, n_malloc_mb := none,
    n_peak_mb := none, n_growth_mb := none, n_copy_mb_s := none }

/-- A raw function whose `name` is present but the empty string. -/
def cexFunEmptyName : RawScaleneFunction :=
  { name := some "", lineno := some 5, n_cpu_percent_python := none,
    n_cpu_percent_c := none, n_sys_percent := none, n_malloc_mb := none,
    n_peak_mb := none, n_growth_mb := none, n_copy_mb_s := none }

/-- The spec's function-filtering example: one complete entry and one
entry missing its `lineno`. -/
def exFileFunctions : RawScaleneFile :=
  { lines := []
    functions := [exFunGood, exFunNoLineno]
    imports := none
    leaks := none }

/-- A file with one line whose `peakMb` is 100. -/
def exFile100 : RawScaleneFile :=
  { lines := [{ emptyRawLine with lineno := 3, n_peak_mb := some 100 }]
    functions := []
    imports := none
    leaks := none }

/-- A file with one line whose `peakMb` is 200. -/
def exFile200 : RawScaleneFile :=
  { lines := [{ emptyRawLine with lineno := 7, n_peak_mb := some 200 }]
    functions := []
    imports := none
    leaks := none }

/-- The spec's aggregate example: two files, one line each, with
`peakMb` 100 and 200 respectively. -/
def exReport2 : RawScaleneProfile :=
  { alloc_samples := none, free_samples := none, args := none,
    elapsed_time_sec := 1, entrypoint_dir := none, filename := none,
    files := [("a.py", exFile100), ("b.py", exFile200)], growth_rate := none }

/-- A file whose single line has `peakMb` 0 but positive growth. -/
def exFileZeroPeak : RawScaleneFile :=
  { lines := [{ emptyRawLine with
      lineno := 4
      n_peak_mb := some 0
      n_growth_mb := some 4 }]
    functions := []
    imports := none
    leaks := none }

/-- A file whose single line has a negative `peakMb`. -/
def exFileNegPeak : RawScaleneFile :=
  { lines := [{ emptyRawLine with
      lineno := 4
      n_peak_mb := some (-3) }]
    functions := []
    imports := none
    leaks := none }

/-- A report whose single line has `peakMb` 0 but positive growth. -/
def exReportZeroPeak : RawScaleneProfile :=
  { alloc_samples := none, free_samples := none, args := none,
    elapsed_time_sec := 1, entrypoint_dir := none, filename := none,
    files := [("a.py", exFileZeroPeak)]
    growth_rate := none }

/-- A report whose single line has a negative `peakMb`. -/
def exReportNegPeak : RawScaleneProfile :=
  { alloc_samples := none, free_samples := none, args := none,
    elapsed_time_sec := 1, entrypoint_dir := none, filename := none,
    files := [("a.py", exFileNegPeak)]
    growth_rate := none }

/-! ## Helper lemmas -/

/-- An entry found by `List.lookup` is an entry of the list. -/
lemma mem_of_lookup_eq_some {k : String} {w : ℚ} {l : List (String × ℚ)}
    (h : l.lookup k = some w) : (k, w) ∈ l := by
  induction l with
  | nil => simp [List.lookup] at h
  | cons hd tl ih =>
    rcases hd with ⟨a, b⟩
    by_cases hk : (k == a : Bool)
    · simp only [List.lookup, hk] at h
      obtain rfl : b = w := by simpa using h
      obtain rfl : k = a := by simpa using hk
      exact List.mem_cons_self _ _
    · simp only [List.lookup, Bool.not_eq_true] at hk
      rw [List.lookup] at h
      simp only [hk] at h
      exact List.mem_cons_of_mem _ (ih h)

/-- The leak score computed by the source is the sum of the four terms the
spec describes. -/
lemma leakScore_decomp (line : RawScaleneLine)
    (leaks : Option (List (String × ℚ))) :
    calculateLeakScore line leaks
      = leakTermLeaks line leaks + leakTermGrowth line
        + leakTermMalloc line + leakTermUsage line := by
  unfold calculateLeakScore leakTermLeaks leakTermGrowth leakTermMalloc leakTermUsage
  rcases hl : lookupLeak leaks line.lineno with _ | w <;>
    rcases hg : line.n_growth_mb with _ | g <;>
      rcases hm : line.n_malloc_mb with _ | m <;>
        rcases hu : line.n_usage_fraction with _ | u <;>
          simp only [hl, hg, hm, hu] <;>
            (try split_ifs) <;> (try simp_all)

/-! ## Claims about the leak score and the leak classifier -/

/-- C1: for every raw line and optional leaks map, the leak score equals
the sum of the leaks-map weight for the line's number (when an entry
exists), `growthMb * 10` when `growthMb` is present and positive,
`mallocMb * 5` when both `mallocMb` and `growthMb` are present and
positive, and a flat 20 when `usageFraction` is present and below 0.3 and
`growthMb` is present and positive; the spec's example line
(growth 5, usage 0.1, malloc 2) scores 80 and a line with no memory
fields scores 0. -/
theorem calculateLeakScore_eq_sum_of_terms :
    (∀ (line : RawScaleneLine) (leaks : Option (List (String × ℚ))),
      calculateLeakScore line leaks
        = leakTermLeaks line leaks + leakTermGrowth line
          + leakTermMalloc line + leakTermUsage line)
    ∧ calculateLeakScore exLine10 none = 80
    ∧ calculateLeakScore exLine20 none = 0 := by
  refine ⟨leakScore_decomp, ?_, ?_⟩
  · norm_num [calculateLeakScore, lookupLeak, exLine10, emptyRawLine]
  · norm_num [calculateLeakScore, lookupLeak, exLine20, emptyRawLine]

/-- C2 (counterexample): a leaks map carrying a negative weight drives the
leak score below zero, so the score is not non-negative for arbitrary
weights. -/
theorem calculateLeakScore_negative_weight_cex :
    calculateLeakScore cexLeakLine (some cexLeakMap) < 0 := by
  norm_num [calculateLeakScore, lookupLeak, cexLeakLine, cexLeakMap,
    emptyRawLine, List.lookup]
  try decide

/-- C2 (amended): for every raw line and every leaks map whose stored
weights are all non-negative, the derived leak score is non-negative,
regardless of the signs of the line's metric fields. -/
theorem calculateLeakScore_nonneg (line : RawScaleneLine)
    (leaks : Option (List (String × ℚ)))
    (h : ∀ kv ∈ leaks.getD [], (0:ℚ) ≤ kv.2) :
    0 ≤ calculateLeakScore line leaks := by
  rw [leakScore_decomp]
  have h1 : 0 ≤ leakTermLeaks line leaks := by
    unfold leakTermLeaks
    split
    · rename_i w hw
      rcases leaks with _ | m
      · simp [lookupLeak] at hw
      · simp only [lookupLeak] at hw
        simpa using h _ (mem_of_lookup_eq_some hw)
    · norm_num
  have h2 : 0 ≤ leakTermGrowth line := by
    unfold leakTermGrowth
    split
    · split_ifs with hg
      · nlinarith
      · norm_num
    · norm_num
  have h3 : 0 ≤ leakTermMalloc line := by
    unfold leakTermMalloc
    split
    · split_ifs with hc
      · nlinarith [hc.1]
      · norm_num
    · norm_num
  have h4 : 0 ≤ leakTermUsage line := by
    unfold leakTermUsage
    split
    · split_ifs <;> norm_num
    · norm_num
  linarith

theorem calculateLeakScore_nonneg_witness :
    0 ≤ calculateLeakScore exLine10 none :=
  calculateLeakScore_nonneg exLine10 none (by simp)

/-- C3: the classifier returns true exactly when the line's leak score
(read as 0 when absent) strictly exceeds the threshold; the source's
default threshold is 50. -/
theorem isLikelyLeak_strict_threshold :
    (∀ (line : ScaleneLineData) (t : ℚ),
      isLikelyLeak line t = true ↔ t < line.leak_score.getD 0)
    ∧ defaultLeakThreshold = 50 := by
  refine ⟨?_, rfl⟩
  intro line t
  unfold isLikelyLeak
  rcases hs : line.leak_score with _ | v
  · simp [hs]
  · by_cases hv : v = 0 <;> simp [hs, hv]

/-- C8: two raw lines identical except for their (positive) `growthMb`
values, normalized against the same leaks map, score in the same order as
their growth. -/
theorem calculateLeakScore_monotone_growth (l : RawScaleneLine)
    (leaks : Option (List (String × ℚ))) (g1 g2 : ℚ)
    (h0 : 0 < g1) (h12 : g1 < g2) :
    calculateLeakScore { l with n_growth_mb := some g1 } leaks
      ≤ calculateLeakScore { l with n_growth_mb := some g2 } leaks := by
  have hg2 : 0 < g2 := lt_trans h0 h12
  rw [leakScore_decomp, leakScore_decomp]
  have e1 : leakTermLeaks { l with n_growth_mb := some g1 } leaks
      = leakTermLeaks { l with n_growth_mb := some g2 } leaks := rfl
  have e2 : leakTermGrowth { l with n_growth_mb := some g1 }
      ≤ leakTermGrowth { l with n_growth_mb := some g2 } := by
    simp only [leakTermGrowth]
    split_ifs <;> linarith
  have e3 : leakTermMalloc { l with n_growth_mb := some g1 }
      = leakTermMalloc { l with n_growth_mb := some g2 } := by
    simp only [leakTermMalloc]
    rcases hm : l.n_malloc_mb with _ | m <;> simp [hm, h0, hg2]
  have e4 : leakTermUsage { l with n_growth_mb := some g1 }
      = leakTermUsage { l with n_growth_mb := some g2 } := by
    simp only [leakTermUsage]
    rcases hu : l.n_usage_fraction with _ | u <;> simp [hu, h0, hg2]
  rw [← e1, ← e3, ← e4] at *
  linarith

theorem calculateLeakScore_monotone_growth_witness :
    calculateLeakScore { emptyRawLine with n_growth_mb := some 1 } none
      ≤ calculateLeakScore { emptyRawLine with n_growth_mb := some 2 } none :=
  calculateLeakScore_monotone_growth emptyRawLine none 1 2 (by norm_num)
    (by norm_num)

/-! ## Claims about the function normalizer and totality -/

/-- C5 (counterexample): a raw function whose `name` is present but equal
to the empty string — with `lineno` also present — is rejected, although
the claim says every record having both a name and a lineno is kept. -/
theorem parseScaleneFunction_empty_name_cex :
    cexFunEmptyName.name ≠ none ∧ cexFunEmptyName.lineno ≠ none
      ∧ parseScaleneFunction cexFunEmptyName = none := by
  refine ⟨by simp [cexFunEmptyName], by simp [cexFunEmptyName], ?_⟩
  simp [parseScaleneFunction, cexFunEmptyName, jsFalsyStr, jsFalsyNat]

/-- C5 (amended): the Function Normalizer rejects a raw function record if
and only if its name is absent or empty, or its lineno is absent or zero;
the spec's example list (one complete entry, one missing `lineno`)
normalizes to a single function. -/
theorem parseScaleneFunction_none_iff :
    (∀ f : RawScaleneFunction,
      parseScaleneFunction f = none
        ↔ (f.name = none ∨ f.name = some "" ∨ f.lineno = none ∨ f.lineno = some 0))
    ∧ (parseScaleneFile exFileFunctions).functions.length = 1 := by
  constructor
  · intro f
    rcases hn : f.name with _ | s <;> rcases hl : f.lineno with _ | n <;>
      simp [parseScaleneFunction, jsFalsyStr, jsFalsyNat, hn, hl] <;> (try tauto)
  · simp [parseScaleneFile, parseScaleneFunction, exFileFunctions, exFunGood,
      exFunNoLineno, jsFalsyStr, jsFalsyNat]

/-- C6: the Report Normalizer is total — the variant whose numeric
hazards are made explicit always returns `Except.ok` of the normalized
report, for every syntactically valid raw report. -/
theorem parseScaleneProfileE_total (raw : RawScaleneProfile) :
    parseScaleneProfileE raw = Except.ok (parseScaleneProfile raw) := by
  unfold parseScaleneProfileE parseScaleneProfile
  simp only [growthRateE, divE]
  split_ifs with h1 h2
  · exact absurd h2 (ne_of_gt h1)
  · simp [Except.map]
  · rfl

/-! ## The running maximum of the aggregation loop -/

/-- The `maxMemoryMb` component of one aggregation step. -/
lemma aggLine_maxMemoryMb (s : AggState) (ld : ScaleneLineData) :
    (aggLine s ld).maxMemoryMb =
      if truthyQ ld.n_peak_mb && decide (getQ ld.n_peak_mb > s.maxMemoryMb)
      then getQ ld.n_peak_mb else s.maxMemoryMb := by
  unfold aggLine
  split_ifs <;> rfl

/-- With a non-negative running maximum, the source's guarded update is
exactly `max`. -/
lemma step_max_eq (m p : ℚ) (hm : 0 ≤ m) :
    (if ((p != 0) && decide (p > m) : Bool) then p else m) = max m p := by
  by_cases h0 : p = 0
  · subst h0
    simp [max_eq_left hm]
  · by_cases hpm : m < p
    · simp [h0, hpm, max_eq_right (le_of_lt hpm)]
    · simp [hpm, max_eq_left (not_lt.mp hpm)]

lemma le_foldl_max (l : List ℚ) : ∀ b : ℚ, b ≤ l.foldl max b := by
  induction l with
  | nil => intro b; exact le_refl b
  | cons hd tl ih => intro b; exact le_trans (le_max_left b hd) (ih (max b hd))

/-- The running maximum after folding a list of normalized lines. -/
lemma foldl_aggLine_max (ls : List ScaleneLineData) :
    ∀ s : AggState, 0 ≤ s.maxMemoryMb →
      (ls.foldl aggLine s).maxMemoryMb
        = (ls.filterMap ScaleneLineData.n_peak_mb).foldl max s.maxMemoryMb := by
  induction ls with
  | nil => intro s _; rfl
  | cons hd tl ih =>
    intro s hs
    rcases hp : hd.n_peak_mb with _ | p
    · have h1 : (aggLine s hd).maxMemoryMb = s.maxMemoryMb := by
        rw [aggLine_maxMemoryMb, hp]
        rfl
      simp only [List.foldl_cons, List.filterMap_cons, hp]
      rw [ih _ (h1 ▸ hs), h1]
    · have h1 : (aggLine s hd).maxMemoryMb = max s.maxMemoryMb p := by
        rw [aggLine_maxMemoryMb, hp]
        exact step_max_eq s.maxMemoryMb p hs
      simp only [List.foldl_cons, List.filterMap_cons, hp]
      rw [ih _ (h1 ▸ le_trans hs (le_max_left _ _)), h1]

lemma aggFile_max (nf : ScaleneFileData) (s : AggState) (hs : 0 ≤ s.maxMemoryMb) :
    (aggFile s nf).maxMemoryMb
      = ((valuesOf nf.lines).filterMap ScaleneLineData.n_peak_mb).foldl
          max s.maxMemoryMb :=
  foldl_aggLine_max _ s hs

/-- The running maximum after folding a list of raw files. -/
lemma reportAgg_max_aux (fs : List (String × RawScaleneFile)) :
    ∀ s : AggState, 0 ≤ s.maxMemoryMb →
      ((fs.foldl (fun s pf => aggFile s (parseScaleneFile pf.2)) s).maxMemoryMb
        = ((fs.map (fun pf =>
            (valuesOf (parseScaleneFile pf.2).lines).filterMap
              ScaleneLineData.n_peak_mb)).flatten).foldl max s.maxMemoryMb) := by
  induction fs with
  | nil => intro s _; rfl
  | cons hd tl ih =>
    intro s hs
    have h1 : 0 ≤ (aggFile s (parseScaleneFile hd.2)).maxMemoryMb := by
      rw [aggFile_max _ _ hs]
      exact le_trans hs (le_foldl_max _ _)
    simp only [List.foldl_cons, List.map_cons, List.flatten_cons, List.foldl_append]
    rw [ih _ h1, aggFile_max _ _ hs]

lemma parseScaleneProfile_max (raw : RawScaleneProfile) :
    (parseScaleneProfile raw).max_memory_mb = (reportAgg raw).maxMemoryMb := by
  simp [parseScaleneProfile, mkScaleneProfile, reportAgg, List.foldl_map]

lemma parseScaleneProfile_max_foldl (raw : RawScaleneProfile) :
    (parseScaleneProfile raw).max_memory_mb
      = (allNormalizedPeaks raw).foldl max 0 := by
  rw [parseScaleneProfile_max]
  exact reportAgg_max_aux raw.files initAgg (le_refl 0)

/-! ## Permutation between normalized and raw line order -/

/-- Inserting a fresh key permutes the values by consing the new value,
and similarly the keys. -/
lemma insertSorted_perm (k : ℕ) (v : ScaleneLineData) :
    ∀ m : List (ℕ × ScaleneLineData), k ∉ keysOf m →
      List.Perm (valuesOf (insertSorted m k v)) (v :: valuesOf m)
      ∧ List.Perm (keysOf (insertSorted m k v)) (k :: keysOf m) := by
  intro m
  induction m with
  | nil =>
    intro _
    exact ⟨List.Perm.refl _, List.Perm.refl _⟩
  | cons hd tl ih =>
    intro hk
    rcases hd with ⟨k', v'⟩
    unfold insertSorted
    split_ifs with h1 h2
    · exact absurd (by simp [keysOf, h1]) hk
    · exact ⟨List.Perm.refl _, List.Perm.refl _⟩
    · have hk' : k ∉ keysOf tl := by
        intro h
        exact hk (by simp [keysOf] at h ⊢; exact Or.inr h)
      obtain ⟨pv, pk⟩ := ih hk'
      constructor
      · exact List.Perm.trans (List.Perm.cons v' pv)
          (List.Perm.swap v v' (valuesOf tl))
      · exact List.Perm.trans (List.Perm.cons k' pk)
          (List.Perm.swap k k' (keysOf tl))

/-- Folding insertions of lines with pairwise-fresh keys permutes the
values into the parsed lines, appended to the accumulator's values. -/
lemma foldl_insert_perm (leaks : Option (List (String × ℚ))) :
    ∀ (lines : List RawScaleneLine) (m : List (ℕ × ScaleneLineData)),
      (keysOf m ++ lines.map RawScaleneLine.lineno).Nodup →
      List.Perm
        (valuesOf (lines.foldl
          (fun acc l => insertSorted acc l.lineno (parseScaleneLine l leaks)) m))
        (valuesOf m ++ lines.map (fun l => parseScaleneLine l leaks)) := by
  intro lines
  induction lines with
  | nil =>
    intro m h
    simp
  | cons hd tl ih =>
    intro m h
    simp only [List.map_cons] at h
    have hk : hd.lineno ∉ keysOf m := by
      rw [List.nodup_append] at h
      intro hmem
      exact h.2.2 hmem (by simp)
    obtain ⟨pv, pk⟩ :=
      insertSorted_perm hd.lineno (parseScaleneLine hd leaks) m hk
    have hperm2 : List.Perm
        (keysOf m ++ (hd.lineno :: tl.map RawScaleneLine.lineno))
        (keysOf (insertSorted m hd.lineno (parseScaleneLine hd leaks))
          ++ tl.map RawScaleneLine.lineno) :=
      List.Perm.trans List.perm_middle (List.Perm.append_right _ pk.symm)
    have h' : (keysOf (insertSorted m hd.lineno (parseScaleneLine hd leaks))
        ++ tl.map RawScaleneLine.lineno).Nodup := hperm2.nodup h
    simp only [List.foldl_cons, List.map_cons]
    exact (ih _ h').trans ((pv.append_right _).trans List.perm_middle.symm)

lemma parseScaleneFile_values_perm (f : RawScaleneFile)
    (h : (f.lines.map RawScaleneLine.lineno).Nodup) :
    List.Perm (valuesOf (parseScaleneFile f).lines)
      (f.lines.map (fun l => parseScaleneLine l f.leaks)) := by
  have h0 : (keysOf ([] : List (ℕ × ScaleneLineData))
      ++ f.lines.map RawScaleneLine.lineno).Nodup := by simpa [keysOf]
  simpa [parseScaleneFile, valuesOf] using foldl_insert_perm f.leaks f.lines [] h0

/-- Under distinct line numbers, the peaks seen by the aggregation loop
are a permutation of the raw lines' peaks. -/
lemma file_peaks_perm (f : RawScaleneFile)
    (h : (f.lines.map RawScaleneLine.lineno).Nodup) :
    List.Perm
      ((valuesOf (parseScaleneFile f).lines).filterMap ScaleneLineData.n_peak_mb)
      (f.lines.filterMap RawScaleneLine.n_peak_mb) := by
  have hp := (parseScaleneFile_values_perm f h).filterMap ScaleneLineData.n_peak_mb
  rw [List.filterMap_map] at hp
  have he : (ScaleneLineData.n_peak_mb ∘ fun l => parseScaleneLine l f.leaks)
      = RawScaleneLine.n_peak_mb := funext fun l => rfl
  rwa [he] at hp

/-- C7 -/
theorem max_memory_running_max (raw : RawScaleneProfile) :
    (parseScaleneProfile raw).max_memory_mb = (allNormalizedPeaks raw).foldl max 0
    ∧ ((∀ pf ∈ raw.files, (pf.2.lines.map RawScaleneLine.lineno).Nodup) →
       (parseScaleneProfile raw).max_memory_mb = (allRawPeaks raw).foldl max 0) := by
  refine ⟨parseScaleneProfile_max_foldl raw, fun h => ?_⟩
  rw [parseScaleneProfile_max_foldl raw]
  have hperm : ∀ fs : List (String × RawScaleneFile),
      (∀ pf ∈ fs, (pf.2.lines.map RawScaleneLine.lineno).Nodup) →
      List.Perm
        ((fs.map (fun pf => (valuesOf (parseScaleneFile pf.2).lines).filterMap
          ScaleneLineData.n_peak_mb)).flatten)
        ((fs.map (fun pf => pf.2.lines.filterMap RawScaleneLine.n_peak_mb)).flatten) := by
    intro fs
    induction fs with
    | nil => intro _; exact List.Perm.refl _
    | cons hd tl ih =>
      intro hfs
      simp only [List.map_cons, List.flatten_cons]
      exact (file_peaks_perm hd.2 (hfs hd (by simp))).append
        (ih fun pf hpf => hfs pf (List.mem_cons_of_mem _ hpf))
  exact (hperm raw.files h).foldl_eq 0

theorem max_memory_running_max_witness :
    (parseScaleneProfile exReport2).max_memory_mb
        = (allRawPeaks exReport2).foldl max 0
    ∧ (parseScaleneProfile exReport2).max_memory_mb = 200 := by
  have hnodup : ∀ pf ∈ exReport2.files,
      (pf.2.lines.map RawScaleneLine.lineno).Nodup := by
    intro pf hpf
    simp [exReport2] at hpf
    rcases hpf with rfl | rfl
    · simp [exFile100]
    · simp [exFile200]
  have h := (max_memory_running_max exReport2).2 hnodup
  refine ⟨h, ?_⟩
  rw [h]
  norm_num [allRawPeaks, exReport2, exFile100, exFile200, emptyRawLine,
    List.filterMap_cons, max_def]



/-- If every present peak is non-positive, the running maximum stays 0. -/
lemma foldl_aggLine_max_zero : ∀ (ls : List ScaleneLineData) (s : AggState),
    s.maxMemoryMb = 0 →
    (∀ ld ∈ ls, ∀ p : ℚ, ld.n_peak_mb = some p → p ≤ 0) →
    (ls.foldl aggLine s).maxMemoryMb = 0 := by
  intro ls
  induction ls with
  | nil =>
    intro s hs _
    exact hs
  | cons hd tl ih =>
    intro s hs h
    have h1 : (aggLine s hd).maxMemoryMb = s.maxMemoryMb := by
      rw [aggLine_maxMemoryMb]
      rcases hp : hd.n_peak_mb with _ | p
      · rfl
      · have hple : p ≤ 0 := h hd (by simp) p hp
        have hd1 : decide (getQ (some p) > s.maxMemoryMb) = false := by
          rw [hs]
          exact decide_eq_false (by simpa [getQ] using not_lt.mpr hple)
        simp [hd1]
    rw [List.foldl_cons,
      ih _ (h1.trans hs) (fun ld hld => h ld (List.mem_cons_of_mem _ hld))]

/-- A value of the inserted map is the new value or an old value. -/
lemma mem_valuesOf_insertSorted (v w : ScaleneLineData) (k : ℕ) :
    ∀ m, v ∈ valuesOf (insertSorted m k w) → v = w ∨ v ∈ valuesOf m := by
  intro m
  induction m with
  | nil =>
    intro h
    simp [insertSorted, valuesOf] at h
    exact Or.inl h
  | cons hd tl ih =>
    rcases hd with ⟨k', v'⟩
    intro h
    unfold insertSorted at h
    split_ifs at h with h1 h2
    · simp only [valuesOf, List.map_cons] at h ⊢
      rcases List.mem_cons.mp h with h | h
      · exact Or.inl h
      · exact Or.inr (List.mem_cons_of_mem _ h)
    · simp only [valuesOf, List.map_cons] at h ⊢
      rcases List.mem_cons.mp h with h | h
      · exact Or.inl h
      · exact Or.inr h
    · simp only [valuesOf, List.map_cons] at h ⊢
      rcases List.mem_cons.mp h with h | h
      · exact Or.inr (List.mem_cons.mpr (Or.inl h))
      · rcases ih h with h | h
        · exact Or.inl h
        · exact Or.inr (List.mem_cons.mpr (Or.inr h))

/-- A value of the built lines map comes from the accumulator or from one
of the raw lines. -/
lemma mem_valuesOf_foldl (leaks : Option (List (String × ℚ)))
    (v : ScaleneLineData) :
    ∀ (lines : List RawScaleneLine) (m : List (ℕ × ScaleneLineData)),
      v ∈ valuesOf (lines.foldl
        (fun acc l => insertSorted acc l.lineno (parseScaleneLine l leaks)) m) →
      v ∈ valuesOf m ∨ ∃ l ∈ lines, v = parseScaleneLine l leaks := by
  intro lines
  induction lines with
  | nil =>
    intro m h
    exact Or.inl h
  | cons hd tl ih =>
    intro m h
    rw [List.foldl_cons] at h
    rcases ih _ h with h | ⟨l, hl, hv⟩
    · rcases mem_valuesOf_insertSorted v _ _ m h with h | h
      · exact Or.inr ⟨hd, by simp, h⟩
      · exact Or.inl h
    · exact Or.inr ⟨l, List.mem_cons_of_mem _ hl, hv⟩

lemma aggFile_max_zero (f : RawScaleneFile) (s : AggState)
    (hs : s.maxMemoryMb = 0)
    (h : ∀ l ∈ f.lines, ∀ p : ℚ, l.n_peak_mb = some p → p ≤ 0) :
    (aggFile s (parseScaleneFile f)).maxMemoryMb = 0 := by
  apply foldl_aggLine_max_zero _ s hs
  intro ld hld p hp
  rcases mem_valuesOf_foldl f.leaks ld f.lines []
      (by simpa [parseScaleneFile, valuesOf] using hld) with h0 | ⟨l, hl, rfl⟩
  · simp [valuesOf] at h0
  · exact h l hl p hp

lemma reportAgg_max_zero (raw : RawScaleneProfile)
    (h : ∀ pf ∈ raw.files, ∀ l ∈ pf.2.lines, ∀ p : ℚ,
      l.n_peak_mb = some p → p ≤ 0) :
    (reportAgg raw).maxMemoryMb = 0 := by
  unfold reportAgg
  have haux : ∀ (fs : List (String × RawScaleneFile)) (s : AggState),
      s.maxMemoryMb = 0 →
      (∀ pf ∈ fs, ∀ l ∈ pf.2.lines, ∀ p : ℚ, l.n_peak_mb = some p → p ≤ 0) →
      (fs.foldl (fun s pf => aggFile s (parseScaleneFile pf.2)) s).maxMemoryMb
        = 0 := by
    intro fs
    induction fs with
    | nil =>
      intro s hs _
      exact hs
    | cons hd tl ih =>
      intro s hs hfs
      rw [List.foldl_cons]
      exact ih _ (aggFile_max_zero hd.2 s hs (hfs hd (by simp)))
        (fun pf hpf => hfs pf (List.mem_cons_of_mem _ hpf))
  exact haux raw.files initAgg rfl h

/-- C10 -/
theorem max_memory_nonneg (raw : RawScaleneProfile) :
    0 ≤ (parseScaleneProfile raw).max_memory_mb
    ∧ ((∀ pf ∈ raw.files, ∀ l ∈ pf.2.lines, ∀ p : ℚ,
          l.n_peak_mb = some p → p < 0) →
       (parseScaleneProfile raw).max_memory_mb = 0) := by
  constructor
  · rw [parseScaleneProfile_max_foldl]
    exact le_foldl_max _ 0
  · intro h
    rw [parseScaleneProfile_max]
    exact reportAgg_max_zero raw
      (fun pf hpf l hl p hp => le_of_lt (h pf hpf l hl p hp))

theorem max_memory_nonneg_witness :
    0 ≤ (parseScaleneProfile exReportNegPeak).max_memory_mb
    ∧ (parseScaleneProfile exReportNegPeak).max_memory_mb = 0 := by
  have h := max_memory_nonneg exReportNegPeak
  refine ⟨h.1, h.2 ?_⟩
  intro pf hpf l hl p hp
  simp [exReportNegPeak] at hpf
  subst hpf
  simp [exFileNegPeak, emptyRawLine] at hl
  subst hl
  simp [emptyRawLine] at hp
  rw [← hp]
  norm_num

/-- C4 -/
theorem growth_rate_formula (raw : RawScaleneProfile) :
    ((parseScaleneProfile raw).growth_rate
      = if 0 < (parseScaleneProfile raw).max_memory_mb
        then (parseScaleneProfile raw).total_memory_growth_mb
              / (parseScaleneProfile raw).max_memory_mb * 100
        else 0)
    ∧ ((∀ pf ∈ raw.files, ∀ l ∈ pf.2.lines,
          l.n_peak_mb = none ∨ l.n_peak_mb = some 0) →
        (parseScaleneProfile raw).growth_rate = 0) := by
  have h1 : (parseScaleneProfile raw).growth_rate
      = if 0 < (parseScaleneProfile raw).max_memory_mb
        then (parseScaleneProfile raw).total_memory_growth_mb
              / (parseScaleneProfile raw).max_memory_mb * 100
        else 0 := rfl
  refine ⟨h1, fun h => ?_⟩
  have hmax : (parseScaleneProfile raw).max_memory_mb = 0 := by
    rw [parseScaleneProfile_max]
    refine reportAgg_max_zero raw ?_
    intro pf hpf l hl p hp
    rcases h pf hpf l hl with h0 | h0 <;> rw [h0] at hp
    · cases hp
    · rw [(Option.some.injEq _ _).mp hp.symm]
  rw [h1, hmax]
  norm_num

theorem growth_rate_formula_witness :
    (parseScaleneProfile exReportZeroPeak).growth_rate = 0 := by
  refine (growth_rate_formula exReportZeroPeak).2 ?_
  intro pf hpf l hl
  simp [exReportZeroPeak] at hpf
  subst hpf
  simp [exFileZeroPeak, emptyRawLine] at hl
  subst hl
  right
  rfl

/-- C9 -/
theorem formatters_case_analysis :
    (formatMemoryMb none = "-" ∧ formatMemoryMb (some 0) = "-"
      ∧ formatPercent none = "-" ∧ formatPercent (some 0) = "-")
    ∧ (∀ v : ℚ, v ≠ 0 → v < 1/100 → formatMemoryMb (some v) = "<0.01 MB")
    ∧ (∀ v : ℚ, 1/100 ≤ v → v < 1 →
        formatMemoryMb (some v) = qToFixed v 2 ++ " MB")
    ∧ (∀ v : ℚ, 1 ≤ v → v < 1000 →
        formatMemoryMb (some v) = qToFixed v 1 ++ " MB")
    ∧ (∀ v : ℚ, 1000 ≤ v →
        formatMemoryMb (some v) = qToFixed (v / 1024) 2 ++ " GB")
    ∧ (∀ v : ℚ, v ≠ 0 → v < 1/100 → formatPercent (some v) = "<0.01%")
    ∧ (∀ v : ℚ, 1/100 ≤ v → formatPercent (some v) = qToFixed v 2 ++ "%") := by
  refine ⟨⟨rfl, by norm_num [formatMemoryMb], rfl, by norm_num [formatPercent]⟩,
    ?_, ?_, ?_, ?_, ?_, ?_⟩
  · intro v h0 h1
    simp only [formatMemoryMb]
    rw [if_neg h0, if_pos h1]
  · intro v h1 h2
    simp only [formatMemoryMb]
    rw [if_neg (ne_of_gt (by linarith : (0:ℚ) < v)),
      if_neg (not_lt.mpr h1), if_pos h2]
  · intro v h1 h2
    simp only [formatMemoryMb]
    rw [if_neg (ne_of_gt (by linarith : (0:ℚ) < v)),
      if_neg (by push_neg; linarith : ¬v < 1/100),
      if_neg (not_lt.mpr h1), if_pos h2]
  · intro v h1
    simp only [formatMemoryMb]
    rw [if_neg (ne_of_gt (by linarith : (0:ℚ) < v)),
      if_neg (by push_neg; linarith : ¬v < 1/100),
      if_neg (by push_neg; linarith : ¬v < 1),
      if_neg (not_lt.mpr h1)]
  · intro v h0 h1
    simp only [formatPercent]
    rw [if_neg h0, if_pos h1]
  · intro v h1
    simp only [formatPercent]
    rw [if_neg (ne_of_gt (by linarith : (0:ℚ) < v)),
      if_neg (not_lt.mpr h1)]

theorem formatters_case_analysis_witness :
    formatMemoryMb (some (5/1000)) = "<0.01 MB"
    ∧ formatMemoryMb (some (1/2)) = "0.50 MB"
    ∧ formatMemoryMb (some (427/10)) = "42.7 MB"
    ∧ formatMemoryMb (some 2048) = "2.00 GB"
    ∧ formatPercent (some (5/1000)) = "<0.01%"
    ∧ formatPercent (some (314159/100000)) = "3.14%" := by
  obtain ⟨hbase, h1, h2, h3, h4, h5, h6⟩ := formatters_case_analysis
  refine ⟨h1 _ (by norm_num) (by norm_num), ?_, ?_, ?_,
    h5 _ (by norm_num) (by norm_num), ?_⟩
  · rw [h2 _ (by norm_num) (by norm_num)]
    have hf : (⌊(1:ℚ)/2 * 10 ^ 2 + 1/2⌋ : ℤ) = 50 := by
      rw [Int.floor_eq_iff]
      constructor <;> norm_num
    norm_num [qToFixed, hf]
    decide
  · rw [h3 _ (by norm_num) (by norm_num)]
    have hf : (⌊(427:ℚ)/10 * 10 ^ 1 + 1/2⌋ : ℤ) = 427 := by
      rw [Int.floor_eq_iff]
      constructor <;> norm_num
    norm_num [qToFixed, hf]
    decide
  · rw [h4 _ (by norm_num)]
    have hf : (⌊(2048:ℚ)/1024 * 10 ^ 2 + 1/2⌋ : ℤ) = 200 := by
      rw [Int.floor_eq_iff]
      constructor <;> norm_num
    norm_num [qToFixed, hf]
    decide
  · rw [h6 _ (by norm_num)]
    have hf : (⌊(314159:ℚ)/100000 * 10 ^ 2 + 1/2⌋ : ℤ) = 314 := by
      rw [Int.floor_eq_iff]
      constructor <;> norm_num
    norm_num [qToFixed, hf]
    decide

end Scalene
